import Mathlib

/-!
Shallow embedding of `src/main.rs` of the rust-transactions-bank service:
the bounded transaction history (`RingBuffer`), accounts with credit/debit
semantics under a negative-balance limit (`Account::transact`), validated
descriptions (`Description::try_from`), and the two request handlers over
the preloaded account table (`create_transaction`, `view_extrato`).

Integers: Rust `i64` values are modelled as unbounded `Int`, which agrees
with the machine semantics whenever no 64-bit overflow occurs.  A second
definition, `Account.transactI64`, models the release-mode wrapping `i64`
arithmetic explicitly via `wrap64` for the claims where overflow matters.

The Rust methods mutate `&mut self` and return `Result<(), &'static str>`;
they are embedded in state-passing style, returning the post-state paired
with the result.  `VecDeque::with_capacity(c)` is modelled as a list plus
the requested capacity `c` (the code relies on `capacity() == c`).
-/

namespace Bank

/-- `enum TransactionType { CREDIT, DEBIT }` from the source. -/
inductive TransactionType where
  | CREDIT
  | DEBIT
deriving DecidableEq, Repr

/-- `struct Description(String)` from the source (the validated wrapper). -/
structure Description where
  val : String
deriving DecidableEq, Repr

/-- `impl TryFrom<String> for Description`: rejects empty strings and
strings longer than 10 bytes (`String::len` counts UTF-8 code units). -/
def Description.tryFrom (value : String) : Except String Description :=
  if value.utf8ByteSize = 0 ∨ 10 < value.utf8ByteSize then
    .error "Descrição invalida"
  else
    .ok ⟨value⟩

/-- `struct Transaction { value: i64, kind: TransactionType, description:
Description, create_at: OffsetDateTime }`; the timestamp is modelled as an
integer instant, it never influences control flow. -/
structure Transaction where
  value : Int
  kind : TransactionType
  description : Description
  create_at : Int
deriving DecidableEq, Repr

/-- `struct RingBuffer<T>(VecDeque<T>)`: the deque's contents front-to-back
as a list together with its fixed allocated capacity. -/
structure RingBuffer (α : Type) where
  capacity : Nat
  data : List α
deriving DecidableEq, Repr

/-- `RingBuffer::new(capacity)` — `VecDeque::with_capacity(capacity)`. -/
def RingBuffer.new (α : Type) (capacity : Nat) : RingBuffer α :=
  ⟨capacity, []⟩

/-- `RingBuffer::push`: if `len == capacity`, pop the back (oldest) element
and push the item at the front; otherwise just push at the front. -/
def RingBuffer.push {α : Type} (b : RingBuffer α) (item : α) : RingBuffer α :=
  if b.data.length = b.capacity then
    { b with data := item :: b.data.dropLast }
  else
    { b with data := item :: b.data }

/-- Folding a sequence of pushes into a buffer, oldest push first. -/
def RingBuffer.pushAll {α : Type} (b : RingBuffer α) (items : List α) : RingBuffer α :=
  items.foldl RingBuffer.push b

/-- `struct Account { balance: i64, limit: i64, transactions: RingBuffer }`. -/
structure Account where
  balance : Int
  limit : Int
  transactions : RingBuffer Transaction
deriving DecidableEq, Repr

/-- `Account::with_limit(limit)`: zero balance, the given limit, and the
default history buffer `RingBuffer::new(10)`. -/
def Account.with_limit (limit : Int) : Account :=
  ⟨0, limit, RingBuffer.new Transaction 10⟩

/-- `Account::transact` in state-passing style: the post-account paired with
`Ok(())` or `Err("Limite insuficiente")`.  CREDIT adds the value and pushes
the transaction; DEBIT requires `limit + balance >= value`, then subtracts
and pushes, and otherwise leaves the account untouched. -/
def Account.transact (a : Account) (transaction : Transaction) :
    Account × Except String Unit :=
  match transaction.kind with
  | .CREDIT =>
      ({ a with balance := a.balance + transaction.value,
                transactions := a.transactions.push transaction }, .ok ())
  | .DEBIT =>
      if transaction.value ≤ a.limit + a.balance then
        ({ a with balance := a.balance - transaction.value,
                  transactions := a.transactions.push transaction }, .ok ())
      else
        (a, .error "Limite insuficiente")

/-- Applying a sequence of transactions in order, keeping the post-state of
each call (rejected transactions leave the state unchanged). -/
def Account.transactAll (a : Account) (ts : List Transaction) : Account :=
  ts.foldl (fun acc t => (acc.transact t).1) a

/-- Two's-complement wrap of an unbounded integer into the `i64` range,
modelling Rust's release-mode wrapping arithmetic. -/
def wrap64 (z : Int) : Int :=
  (z + 2 ^ 63) % 2 ^ 64 - 2 ^ 63

/-- `Account::transact` with the `i64` additions, subtractions and the
`limit + balance` comparison performed in wrapping 64-bit arithmetic, as
compiled in release mode (there is no overflow check in the source). -/
def Account.transactI64 (a : Account) (transaction : Transaction) :
    Account × Except String Unit :=
  match transaction.kind with
  | .CREDIT =>
      ({ a with balance := wrap64 (a.balance + transaction.value),
                transactions := a.transactions.push transaction }, .ok ())
  | .DEBIT =>
      if transaction.value ≤ wrap64 (a.limit + a.balance) then
        ({ a with balance := wrap64 (a.balance - transaction.value),
                  transactions := a.transactions.push transaction }, .ok ())
      else
        (a, .error "Limite insuficiente")

/-- Response of `POST /clientes/:id/transacoes` as produced by
`create_transaction`: the JSON body on success, or the bare status code. -/
inductive TransactionResponse where
  | ok (account : Nat) (limite : Int) (saldo : Int)
  | unprocessableEntity
  | notFound
deriving DecidableEq, Repr

/-- Response of `GET /clientes/:id/extrato` as produced by `view_extrato`. -/
inductive StatementResponse where
  | ok (account : Nat) (total : Int) (limite : Int)
      (ultimas_transacoes : List Transaction)
  | notFound
deriving DecidableEq, Repr

/-- The preloaded account table built in `main`:
`{1: 100_000, 2: 80_000, 3: 1_000_000, 4: 10_000_000, 5: 500_000}`. -/
def account_in_memory : Nat → Option Account := fun id =>
  if id = 1 then some (Account.with_limit 100000)
  else if id = 2 then some (Account.with_limit 80000)
  else if id = 3 then some (Account.with_limit 1000000)
  else if id = 4 then some (Account.with_limit 10000000)
  else if id = 5 then some (Account.with_limit 500000)
  else none

/-- Handler `create_transaction`: resolve the account (absent → 404), call
`transact` under the write lock, write the mutated account back, and answer
`{account, limite, saldo}` on success or 422 on `Err`. -/
def create_transaction (st : Nat → Option Account) (account_id : Nat)
    (transaction : Transaction) : (Nat → Option Account) × TransactionResponse :=
  match st account_id with
  | none => (st, .notFound)
  | some account =>
      match account.transact transaction with
      | (account2, .ok _) =>
          (fun j => if j = account_id then some account2 else st j,
           .ok account_id account2.limit account2.balance)
      | (account2, .error _) =>
          (fun j => if j = account_id then some account2 else st j,
           .unprocessableEntity)

/-- Handler `view_extrato`: resolve the account (absent → 404), read the
balance, limit and newest-first history under the read lock.  The timestamp
field of the response carries no account state and is omitted. -/
def view_extrato (st : Nat → Option Account) (account_id : Nat) :
    StatementResponse :=
  match st account_id with
  | none => .notFound
  | some account =>
      .ok account_id account.balance account.limit account.transactions.data

/-- A sample well-formed transaction used to instantiate witnesses. -/
def sampleTx : Transaction :=
  ⟨100, .CREDIT, ⟨"salary"⟩, 0⟩

/-- A sample debit transaction used to instantiate witnesses. -/
def sampleDebit : Transaction :=
  ⟨500, .DEBIT, ⟨"rent"⟩, 0⟩

/-- A transaction with a negative value, as the untyped `valor: i64` field
admits (serde deserializes any signed integer). -/
def negTx : Transaction :=
  ⟨-1, .CREDIT, ⟨"x"⟩, 0⟩

/-- C1: `Account::transact` performs no sign check on `transaction.value`:
on a fresh account with limit 100000, a CREDIT of value -1 is accepted
(`Ok`) and drives the balance to -1, although the claim requires every
negative-value transaction to be rejected as `InvalidInput`. -/
theorem c1_negative_value_accepted :
    negTx.value < 0 ∧
    ((Account.with_limit 100000).transact negTx).2 = .ok () ∧
    ((Account.with_limit 100000).transact negTx).1.balance = -1 := by
  refine ⟨by decide, rfl, by decide⟩

/-- C2: for a DEBIT, `transact` succeeds iff `balance + limit ≥ value`; on
success the balance drops by the value and the transaction is pushed onto
the history; on failure the returned state is exactly the pre-state and the
error is `"Limite insuficiente"`. -/
theorem c2_debit_semantics (a : Account) (t : Transaction)
    (hk : t.kind = .DEBIT) :
    ((a.transact t).2 = .ok () ↔ t.value ≤ a.balance + a.limit) ∧
    (t.value ≤ a.balance + a.limit →
      a.transact t =
        (⟨a.balance - t.value, a.limit, a.transactions.push t⟩, .ok ())) ∧
    (a.balance + a.limit < t.value →
      a.transact t = (a, .error "Limite insuficiente")) := by
  obtain ⟨v, k, d, c⟩ := t
  cases k with
  | CREDIT => cases hk
  | DEBIT =>
      simp only [Account.transact]
      by_cases h : v ≤ a.limit + a.balance
      · rw [if_pos h]
        refine ⟨by simp; omega, fun _ => rfl, fun hlt => absurd h (by omega)⟩
      · rw [if_neg h]
        refine ⟨by simp; omega, fun hle => absurd hle (by omega), fun _ => rfl⟩

/-- Witness for C2 at a concrete state: account 2 fresh (limit 80000), a
debit of 80001 is rejected with the pre-state intact, matching scenario 3
of the specification. -/
theorem c2_debit_semantics_witness :
    (⟨80001, .DEBIT, ⟨"x"⟩, 0⟩ : Transaction).kind = .DEBIT ∧
    (((Account.with_limit 80000).transact ⟨80001, .DEBIT, ⟨"x"⟩, 0⟩).2 = .ok ()
        ↔ (80001 : Int) ≤ 0 + 80000) ∧
    ((80001 : Int) ≤ 0 + 80000 →
      (Account.with_limit 80000).transact ⟨80001, .DEBIT, ⟨"x"⟩, 0⟩ =
        (⟨0 - 80001, (Account.with_limit 80000).limit,
          (Account.with_limit 80000).transactions.push ⟨80001, .DEBIT, ⟨"x"⟩, 0⟩⟩,
         .ok ())) ∧
    ((0 : Int) + 80000 < 80001 →
      (Account.with_limit 80000).transact ⟨80001, .DEBIT, ⟨"x"⟩, 0⟩ =
        (Account.with_limit 80000, .error "Limite insuficiente")) :=
  ⟨rfl, c2_debit_semantics (Account.with_limit 80000) ⟨80001, .DEBIT, ⟨"x"⟩, 0⟩ rfl⟩

/-- C3: any accepted transaction moves the balance by exactly `+value` for
CREDIT and `-value` for DEBIT and pushes the transaction onto the history;
a CREDIT is always accepted (in overflow-free `i64` arithmetic). -/
theorem c3_credit_and_accepted_delta (a : Account) (t : Transaction)
    (h : (a.transact t).2 = .ok () ∨ t.kind = .CREDIT) :
    (a.transact t).2 = .ok () ∧
    (a.transact t).1.balance =
      (match t.kind with
       | .CREDIT => a.balance + t.value
       | .DEBIT => a.balance - t.value) ∧
    (a.transact t).1.transactions = a.transactions.push t := by
  obtain ⟨v, k, d, c⟩ := t
  cases k with
  | CREDIT => exact ⟨rfl, rfl, rfl⟩
  | DEBIT =>
      rcases h with h | h
      · simp only [Account.transact] at h ⊢
        by_cases hle : v ≤ a.limit + a.balance
        · rw [if_pos hle]
          exact ⟨rfl, rfl, rfl⟩
        · rw [if_neg hle] at h
          cases h
      · cases h

/-- Witness for C3: the concrete CREDIT of scenario 1 on account 1 is
accepted, the balance becomes 0 + 100, and the history gains the entry. -/
theorem c3_credit_and_accepted_delta_witness :
    (((Account.with_limit 100000).transact sampleTx).2 = .ok () ∨
      sampleTx.kind = .CREDIT) ∧
    ((Account.with_limit 100000).transact sampleTx).2 = .ok () ∧
    ((Account.with_limit 100000).transact sampleTx).1.balance =
      (match sampleTx.kind with
       | .CREDIT => (Account.with_limit 100000).balance + sampleTx.value
       | .DEBIT => (Account.with_limit 100000).balance - sampleTx.value) ∧
    ((Account.with_limit 100000).transact sampleTx).1.transactions =
      (Account.with_limit 100000).transactions.push sampleTx :=
  ⟨Or.inr rfl,
   c3_credit_and_accepted_delta (Account.with_limit 100000) sampleTx (Or.inr rfl)⟩

/-- All transactions in the list carry a non-negative value (the domain the
specification demands for `valor`). -/
def nonnegValues (ts : List Transaction) : Prop :=
  ∀ t ∈ ts, 0 ≤ t.value

instance (ts : List Transaction) : Decidable (nonnegValues ts) :=
  List.decidableBAll _ ts

/-- One `transact` step preserves `0 ≤ balance + limit` when the value of
the transaction is non-negative. -/
lemma transact_step_inv (a : Account) (t : Transaction) (hv : 0 ≤ t.value)
    (h : 0 ≤ a.balance + a.limit) :
    0 ≤ (a.transact t).1.balance + (a.transact t).1.limit := by
  obtain ⟨v, k, d, c⟩ := t
  cases k with
  | CREDIT =>
      simp only [Account.transact]
      simp only at hv
      omega
  | DEBIT =>
      simp only [Account.transact]
      by_cases hle : v ≤ a.limit + a.balance
      · rw [if_pos hle]
        show 0 ≤ a.balance - v + a.limit
        simp only at hv
        omega
      · rw [if_neg hle]
        exact h

/-- `transactAll` preserves `0 ≤ balance + limit` for non-negative values. -/
lemma transactAll_inv (ts : List Transaction) :
    ∀ a : Account, 0 ≤ a.balance + a.limit → nonnegValues ts →
      0 ≤ (a.transactAll ts).balance + (a.transactAll ts).limit := by
  induction ts with
  | nil => intro a h _; exact h
  | cons t ts ih =>
      intro a h hv
      have hstep := transact_step_inv a t (hv t (List.mem_cons_self t ts)) h
      have htail : nonnegValues ts := fun u hu => hv u (List.mem_cons_of_mem t hu)
      exact ih (a.transact t).1 hstep htail

/-- C4 counterexample: the claim as stated is false.  Account 1 is
constructed with the non-negative limit 100000; the single transaction
CREDIT of value -100001 is accepted by `transact`, and afterwards
`balance + limit = -100001 + 100000 < 0`. -/
theorem c4_counterexample :
    (0 : Int) ≤ (Account.with_limit 100000).limit ∧
    ((Account.with_limit 100000).transact ⟨-100001, .CREDIT, ⟨"x"⟩, 0⟩).2 = .ok () ∧
    ((Account.with_limit 100000).transact ⟨-100001, .CREDIT, ⟨"x"⟩, 0⟩).1.balance +
      ((Account.with_limit 100000).transact ⟨-100001, .CREDIT, ⟨"x"⟩, 0⟩).1.limit < 0 :=
  ⟨by decide, rfl, by decide⟩

/-- C4 amended: for every account constructed with a non-negative limit and
every sequence of transactions whose values are all non-negative, the
invariant `balance + limit ≥ 0` holds after each accepted transaction
(`ts` ranges over all sequences, hence over every prefix; rejected debits
leave the state unchanged). -/
theorem c4_invariant_amended (L : Int) (hL : 0 ≤ L) (ts : List Transaction)
    (hv : nonnegValues ts) :
    0 ≤ ((Account.with_limit L).transactAll ts).balance +
        ((Account.with_limit L).transactAll ts).limit := by
  have h0 : 0 ≤ (Account.with_limit L).balance + (Account.with_limit L).limit := by
    simp only [Account.with_limit]
    omega
  exact transactAll_inv ts (Account.with_limit L) h0 hv

/-- Witness for the amended C4 at account 1's limit with the two
transactions of scenarios 1 and 2. -/
theorem c4_invariant_amended_witness :
    (0 : Int) ≤ 100000 ∧ nonnegValues [sampleTx, sampleDebit] ∧
    0 ≤ ((Account.with_limit 100000).transactAll [sampleTx, sampleDebit]).balance +
        ((Account.with_limit 100000).transactAll [sampleTx, sampleDebit]).limit :=
  ⟨by decide, by decide,
   c4_invariant_amended 100000 (by decide) [sampleTx, sampleDebit] (by decide)⟩

/-- Pushing never changes the capacity. -/
lemma push_capacity {α : Type} (b : RingBuffer α) (x : α) :
    (b.push x).capacity = b.capacity := by
  unfold RingBuffer.push
  split <;> rfl

/-- Length after one push: grows by one below capacity, stays at capacity
when full (capacity at least 1). -/
lemma push_length {α : Type} (b : RingBuffer α) (x : α)
    (hcap : 1 ≤ b.capacity) (hlen : b.data.length ≤ b.capacity) :
    (b.push x).data.length = min (b.data.length + 1) b.capacity := by
  unfold RingBuffer.push
  by_cases h : b.data.length = b.capacity
  · rw [if_pos h]
    simp only [List.length_cons, List.length_dropLast]
    omega
  · rw [if_neg h]
    simp only [List.length_cons]
    omega

/-- The element just pushed sits at the front. -/
lemma push_front {α : Type} (b : RingBuffer α) (x : α) :
    (b.push x).data.head? = some x := by
  unfold RingBuffer.push
  split <;> rfl

/-- Length after a sequence of pushes, for any start state within
capacity. -/
lemma pushAll_length {α : Type} (xs : List α) :
    ∀ b : RingBuffer α, 1 ≤ b.capacity → b.data.length ≤ b.capacity →
      (b.pushAll xs).data.length = min (b.data.length + xs.length) b.capacity := by
  induction xs with
  | nil =>
      intro b _ hlen
      simp only [RingBuffer.pushAll, List.foldl_nil, List.length_nil]
      omega
  | cons x xs ih =>
      intro b hcap hlen
      have hlen1 := push_length b x hcap hlen
      have hcap1 : 1 ≤ (b.push x).capacity := by rw [push_capacity]; exact hcap
      have hle1 : (b.push x).data.length ≤ (b.push x).capacity := by
        rw [push_capacity, hlen1]; omega
      have := ih (b.push x) hcap1 hle1
      simp only [RingBuffer.pushAll, List.foldl_cons] at this ⊢
      rw [this, hlen1, push_capacity]
      simp only [List.length_cons]
      omega

/-- Splitting the final push off a sequence of pushes. -/
lemma pushAll_append {α : Type} (b : RingBuffer α) (ys : List α) (x : α) :
    b.pushAll (ys ++ [x]) = (b.pushAll ys).push x := by
  simp only [RingBuffer.pushAll, List.foldl_append, List.foldl_cons, List.foldl_nil]

/-- C5: pushing a sequence into a fresh buffer of capacity `N ≥ 1` leaves
`min(push_count, N)` elements; the front element is always the last-pushed
item; and a push into a full buffer (length = capacity = N) drops the back
(oldest) element before prepending. -/
theorem c5_ringbuffer (α : Type) (N : Nat) (hN : 1 ≤ N) (xs ys : List α)
    (x : α) (b : RingBuffer α) (hcap : b.capacity = N)
    (hfull : b.data.length = N) :
    ((RingBuffer.new α N).pushAll xs).data.length = min xs.length N ∧
    ((RingBuffer.new α N).pushAll (ys ++ [x])).data.head? = some x ∧
    (b.push x).data = x :: b.data.dropLast := by
  refine ⟨?_, ?_, ?_⟩
  · have := pushAll_length xs (RingBuffer.new α N) hN (by simp [RingBuffer.new])
    simpa [RingBuffer.new] using this
  · rw [pushAll_append]
    exact push_front _ x
  · unfold RingBuffer.push
    rw [if_pos (by rw [hfull, hcap])]

/-- Witness for C5 with capacity 2: three pushes leave 2 elements, the last
push is at the front, and a push into a full buffer evicts the back. -/
theorem c5_ringbuffer_witness :
    1 ≤ 2 ∧
    (⟨2, [sampleTx, sampleDebit]⟩ : RingBuffer Transaction).capacity = 2 ∧
    (⟨2, [sampleTx, sampleDebit]⟩ : RingBuffer Transaction).data.length = 2 ∧
    (((RingBuffer.new Transaction 2).pushAll [sampleTx, sampleTx, sampleTx]).data.length
      = min [sampleTx, sampleTx, sampleTx].length 2 ∧
     ((RingBuffer.new Transaction 2).pushAll ([sampleDebit] ++ [negTx])).data.head?
      = some negTx ∧
     ((⟨2, [sampleTx, sampleDebit]⟩ : RingBuffer Transaction).push negTx).data
      = negTx :: [sampleTx, sampleDebit].dropLast) :=
  ⟨by decide, rfl, rfl,
   c5_ringbuffer Transaction 2 (by decide) [sampleTx, sampleTx, sampleTx]
     [sampleDebit] negTx ⟨2, [sampleTx, sampleDebit]⟩ rfl rfl⟩

/-- The account state right below the `i64` overflow boundary: balance
`2^63 - 1` (reachable by credits), limit 100000. -/
def overflowAccount : Account :=
  ⟨9223372036854775807, 100000, RingBuffer.new Transaction 10⟩

/-- A CREDIT of 1, whose application to `overflowAccount` overflows `i64`. -/
def oneCredit : Transaction :=
  ⟨1, .CREDIT, ⟨"x"⟩, 0⟩

/-- C6: the source has no overflow check.  At balance `i64::MAX`, a CREDIT
of 1 overflows the 64-bit signed addition; in the wrapping (release-mode)
semantics `transactI64` the transaction is accepted and the balance wraps
silently to `i64::MIN`, instead of being rejected as the claim requires
(a debug build would panic rather than reject). -/
theorem c6_overflow_wraps :
    overflowAccount.balance + oneCredit.value = 9223372036854775808 ∧
    (overflowAccount.transactI64 oneCredit).2 = .ok () ∧
    (overflowAccount.transactI64 oneCredit).1.balance = -9223372036854775808 :=
  ⟨by decide, rfl, by decide⟩

/-- C7: `Description::try_from` succeeds exactly on strings whose UTF-8
byte length (`String::len`, code units) lies in `[1, 10]`, returning the
wrapped string; otherwise it fails. -/
theorem c7_description_tryFrom (s : String) :
    Description.tryFrom s = .ok ⟨s⟩ ↔
      1 ≤ s.utf8ByteSize ∧ s.utf8ByteSize ≤ 10 := by
  unfold Description.tryFrom
  by_cases h : s.utf8ByteSize = 0 ∨ 10 < s.utf8ByteSize
  · rw [if_pos h]
    constructor
    · intro hcontra
      cases hcontra
    · intro hlen
      omega
  · rw [if_neg h]
    push_neg at h
    constructor
    · intro _
      omega
    · intro _
      rfl

/-- C8: a request for an id outside the preloaded table {1,…,5} gets
`NotFound` from both handlers, with the table returned unchanged by
`create_transaction` (and `view_extrato` is a pure read); for a present id
whose `transact` succeeds, `create_transaction` answers with the
post-transaction `(limit, balance)` pair of that account. -/
theorem c8_account_table (i j : Nat) (hi : i ∉ [1, 2, 3, 4, 5])
    (st : Nat → Option Account) (t u : Transaction) (acc : Account)
    (hj : st j = some acc) (hok : (acc.transact u).2 = .ok ()) :
    create_transaction account_in_memory i t = (account_in_memory, .notFound) ∧
    view_extrato account_in_memory i = .notFound ∧
    (create_transaction st j u).2 =
      .ok j (acc.transact u).1.limit (acc.transact u).1.balance := by
  have h0 : account_in_memory i = none := by
    simp only [List.mem_cons, List.not_mem_nil, or_false, not_or] at hi
    obtain ⟨h1, h2, h3, h4, h5⟩ := hi
    simp only [account_in_memory, if_neg h1, if_neg h2, if_neg h3, if_neg h4,
      if_neg h5]
  refine ⟨?_, ?_, ?_⟩
  · simp only [create_transaction, h0]
  · simp only [view_extrato, h0]
  · simp only [create_transaction, hj]
    rcases hres : acc.transact u with ⟨acc2, r⟩
    cases r with
    | ok v =>
        rfl
    | error e =>
        rw [hres] at hok
        cases hok

/-- Witness for C8: id 99 is absent and gets `NotFound` from both handlers;
id 1 is present with limit 100000 and a successful credit of 100 answers
with the post-transaction pair. -/
theorem c8_account_table_witness :
    (99 : Nat) ∉ [1, 2, 3, 4, 5] ∧
    account_in_memory 1 = some (Account.with_limit 100000) ∧
    ((Account.with_limit 100000).transact sampleTx).2 = .ok () ∧
    create_transaction account_in_memory 99 sampleTx =
      (account_in_memory, .notFound) ∧
    view_extrato account_in_memory 99 = .notFound ∧
    (create_transaction account_in_memory 1 sampleTx).2 =
      .ok 1 ((Account.with_limit 100000).transact sampleTx).1.limit
        ((Account.with_limit 100000).transact sampleTx).1.balance := by
  have h := c8_account_table 99 1 (by decide) account_in_memory sampleTx sampleTx
    (Account.with_limit 100000) rfl rfl
  exact ⟨by decide, rfl, rfl, h.1, h.2.1, h.2.2⟩

/-- C9: `transact` never touches the `limit` field, accepted or rejected,
and the limit set by `with_limit` survives any sequence of transactions. -/
theorem c9_limit_immutable (a : Account) (t : Transaction) (L : Int)
    (ts : List Transaction) :
    (a.transact t).1.limit = a.limit ∧
    ((Account.with_limit L).transactAll ts).limit = L := by
  constructor
  · obtain ⟨v, k, d, c⟩ := t
    cases k with
    | CREDIT => rfl
    | DEBIT =>
        simp only [Account.transact]
        by_cases h : v ≤ a.limit + a.balance
        · rw [if_pos h]
        · rw [if_neg h]
  · have step : ∀ (ts : List Transaction) (b : Account),
        (b.transactAll ts).limit = b.limit := by
      intro ts
      induction ts with
      | nil => intro b; rfl
      | cons t ts ih =>
          intro b
          have ht : ((b.transact t).1).limit = b.limit := by
            obtain ⟨v, k, d, c⟩ := t
            cases k with
            | CREDIT => rfl
            | DEBIT =>
                simp only [Account.transact]
                by_cases h : v ≤ b.limit + b.balance
                · rw [if_pos h]
                · rw [if_neg h]
          calc (b.transactAll (t :: ts)).limit
              = (((b.transact t).1).transactAll ts).limit := rfl
            _ = ((b.transact t).1).limit := ih _
            _ = b.limit := ht
    exact step ts (Account.with_limit L)

/-- C10: `Account::transact` is deterministic — equal pre-states and equal
transactions yield equal results and equal post-states; the body reads no
clock, randomness or ambient state. -/
theorem c10_transact_deterministic (a1 a2 : Account) (t1 t2 : Transaction)
    (ha : a1 = a2) (ht : t1 = t2) :
    a1.transact t1 = a2.transact t2 := by
  rw [ha, ht]

/-- Witness for C10 at a concrete account and transaction. -/
theorem c10_transact_deterministic_witness :
    Account.with_limit 80000 = Account.with_limit 80000 ∧
    sampleDebit = sampleDebit ∧
    (Account.with_limit 80000).transact sampleDebit =
      (Account.with_limit 80000).transact sampleDebit :=
  ⟨rfl, rfl,
   c10_transact_deterministic (Account.with_limit 80000)
     (Account.with_limit 80000) sampleDebit sampleDebit rfl rfl⟩

end Bank
